import Mathlib

set_option maxRecDepth 16000
set_option maxHeartbeats 1000000

/-
  Verification development for the llm-mission-planner repository.

  The definitions below are shallow embeddings of the Python sources:
    - mission_planner/schemas.py        (Action, MissionPlan, pydantic validation)
    - mission_planner/planner.py        (MissionPlanner: prompt building, JSON block
                                         extraction, bounded repair-and-retry loop)
    - simulation/pygame_simulation.py   (Robot.step, extract_number, the main loop's
                                         cursor-advance policy)

  Python floats are modelled as exact rationals where the code only ever produces
  rationals (JSON numbers, parsed parameter strings) and as real numbers inside the
  robot state, where sqrt and atan2 produce irrational values.
-/

namespace LlmMissionPlanner

/-- Left brace character, written through its code point. -/
def lbraceC : Char := Char.ofNat 123

/-- Right brace character, written through its code point. -/
def rbraceC : Char := Char.ofNat 125

/-- JSON values as produced by Python json.loads. Numbers are modelled as exact
rationals. The non-standard NaN and Infinity extensions of the Python json module
are not modelled; no claim exercises them. -/
inductive Json where
  | null : Json
  | bool (b : Bool) : Json
  | num (q : ℚ) : Json
  | str (s : String) : Json
  | arr (items : List Json) : Json
  | obj (fields : List (String × Json)) : Json

/-- Whether a JSON value is a string. -/
def Json.isStr : Json → Bool
  | .str _ => true
  | _ => false

/-- JSON whitespace characters. -/
def isJsonWs (c : Char) : Bool :=
  c = ' ' || c = '\t' || c = '\n' || c = '\r'

/-- Drop leading JSON whitespace. -/
def skipWs : List Char → List Char
  | [] => []
  | c :: cs => if isJsonWs c then skipWs cs else c :: cs

/-- Value of a hexadecimal digit. -/
def hexVal (c : Char) : Option Nat :=
  if '0' ≤ c ∧ c ≤ '9' then some (c.toNat - 48)
  else if 'a' ≤ c ∧ c ≤ 'f' then some (c.toNat - 87)
  else if 'A' ≤ c ∧ c ≤ 'F' then some (c.toNat - 55)
  else none

/-- Parse the remainder of a JSON string literal, the opening quote already
consumed, returning the decoded characters and the unconsumed input. Models the
strict string scanner of the Python json module; surrogate escape pairs are not
combined (no claim exercises them). -/
def parseStringRest : Nat → List Char → Option (List Char × List Char)
  | 0, _ => none
  | _ + 1, [] => none
  | fuel + 1, c :: cs =>
    if c = '"' then some ([], cs)
    else if c = '\\' then
      match cs with
      | [] => none
      | e :: cs1 =>
        if e = 'u' then
          match cs1 with
          | h1 :: h2 :: h3 :: h4 :: cs2 =>
            match hexVal h1, hexVal h2, hexVal h3, hexVal h4 with
            | some a, some b, some c2, some d =>
              match parseStringRest fuel cs2 with
              | some (out, rest) =>
                some (Char.ofNat (((a * 16 + b) * 16 + c2) * 16 + d) :: out, rest)
              | none => none
            | _, _, _, _ => none
          | _ => none
        else
          match
            (if e = '"' then some '"'
             else if e = '\\' then some '\\'
             else if e = '/' then some '/'
             else if e = 'b' then some (Char.ofNat 8)
             else if e = 'f' then some (Char.ofNat 12)
             else if e = 'n' then some '\n'
             else if e = 'r' then some '\r'
             else if e = 't' then some '\t'
             else none) with
          | some ec =>
            match parseStringRest fuel cs1 with
            | some (out, rest) => some (ec :: out, rest)
            | none => none
          | none => none
    else if c.toNat < 32 then none
    else
      match parseStringRest fuel cs with
      | some (out, rest) => some (c :: out, rest)
      | none => none

/-- Take a maximal run of decimal digits. -/
def takeDigits : List Char → List Char × List Char
  | [] => ([], [])
  | c :: cs =>
    if c.isDigit then
      let (d, r) := takeDigits cs
      (c :: d, r)
    else ([], c :: cs)

/-- Numeric value of a digit run. -/
def digitsVal (ds : List Char) : Nat :=
  ds.foldl (fun a c => a * 10 + (c.toNat - 48)) 0

/-- Parse a JSON number per the strict grammar used by Python json.loads. -/
def parseJsonNumber (cs : List Char) : Option (ℚ × List Char) :=
  let signSplit : Bool × List Char :=
    match cs with
    | c :: t => if c = '-' then (true, t) else (false, cs)
    | [] => (false, cs)
  let neg := signSplit.1
  match signSplit.2 with
  | [] => none
  | c :: t =>
    if ¬ c.isDigit then none
    else
      let intSplit : List Char × List Char :=
        if c = '0' then ([c], t) else takeDigits (c :: t)
      let ip := intSplit.1
      let cs2 := intSplit.2
      if (c == '0') && (match cs2 with | d :: _ => d.isDigit | [] => false) then none
      else
        let fracSplit : List Char × List Char :=
          match cs2 with
          | dot :: u => if dot = '.' then takeDigits u else ([], cs2)
          | [] => ([], cs2)
        let fp := fracSplit.1
        let cs3 := fracSplit.2
        if (match cs2 with | dot :: _ => dot == '.' | [] => false) && fp.isEmpty then none
        else
          let expSplit : Bool × Int × List Char :=
            match cs3 with
            | e :: u =>
              if e = 'e' ∨ e = 'E' then
                let esignSplit : Int × List Char :=
                  match u with
                  | s :: w =>
                    if s = '-' then (-1, w) else if s = '+' then (1, w) else (1, u)
                  | [] => (1, u)
                let edSplit := takeDigits esignSplit.2
                if edSplit.1 = [] then (true, 0, edSplit.2)
                else (false, esignSplit.1 * (digitsVal edSplit.1 : Int), edSplit.2)
              else (false, 0, cs3)
            | [] => (false, 0, cs3)
          if expSplit.1 then none
          else
            let mant : ℚ := (digitsVal ip : ℚ) + (digitsVal fp : ℚ) / (10 : ℚ) ^ fp.length
            some ((if neg then -mant else mant) * (10 : ℚ) ^ expSplit.2.1, expSplit.2.2)

/-- Match a fixed literal such as rue, alse, ull. -/
def parseLit : List Char → List Char → Option (List Char)
  | [], rest => some rest
  | l :: ls, c :: rest => if c = l then parseLit ls rest else none
  | _ :: _, [] => none

/-- Insert a key-value pair the way Python dict assignment does: an existing key
keeps its position and receives the new value, a new key is appended. -/
def dictInsert (acc : List (String × Json)) (k : String) (v : Json) :
    List (String × Json) :=
  if acc.any (fun p => p.1 == k) then
    acc.map (fun p => if p.1 == k then (k, v) else p)
  else acc ++ [(k, v)]

mutual

/-- Parse one JSON value; mirrors the grammar accepted by Python json.loads. -/
def parseValue : Nat → List Char → Option (Json × List Char)
  | 0, _ => none
  | fuel + 1, cs0 =>
    match skipWs cs0 with
    | [] => none
    | c :: t =>
      if c = lbraceC then
        match skipWs t with
        | [] => none
        | d :: t1 =>
          if d = rbraceC then some (.obj [], t1)
          else
            match parseMembers fuel (d :: t1) [] with
            | some (fs, rest) => some (.obj fs, rest)
            | none => none
      else if c = '[' then
        match skipWs t with
        | [] => none
        | d :: t1 =>
          if d = ']' then some (.arr [], t1)
          else
            match parseItems fuel (d :: t1) [] with
            | some (items, rest) => some (.arr items, rest)
            | none => none
      else if c = '"' then
        match parseStringRest (t.length + 1) t with
        | some (out, rest) => some (.str (String.mk out), rest)
        | none => none
      else if c = 't' then
        match parseLit ['r', 'u', 'e'] t with
        | some rest => some (.bool true, rest)
        | none => none
      else if c = 'f' then
        match parseLit ['a', 'l', 's', 'e'] t with
        | some rest => some (.bool false, rest)
        | none => none
      else if c = 'n' then
        match parseLit ['u', 'l', 'l'] t with
        | some rest => some (.null, rest)
        | none => none
      else
        match parseJsonNumber (c :: t) with
        | some (q, rest) => some (.num q, rest)
        | none => none

/-- Parse object members, the cursor standing on the first character of a key. -/
def parseMembers : Nat → List Char → List (String × Json) →
    Option (List (String × Json) × List Char)
  | 0, _, _ => none
  | fuel + 1, cs, acc =>
    match cs with
    | [] => none
    | c :: t =>
      if c = '"' then
        match parseStringRest (t.length + 1) t with
        | some (keyChars, r1) =>
          match skipWs r1 with
          | [] => none
          | colon :: r2 =>
            if colon = ':' then
              match parseValue fuel r2 with
              | some (v, r3) =>
                let acc1 := dictInsert acc (String.mk keyChars) v
                match skipWs r3 with
                | [] => none
                | sep :: r4 =>
                  if sep = ',' then
                    match skipWs r4 with
                    | [] => none
                    | k :: r5 => parseMembers fuel (k :: r5) acc1
                  else if sep = rbraceC then some (acc1, r4)
                  else none
              | none => none
            else none
        | none => none
      else none

/-- Parse array items, the cursor standing on the first character of an item. -/
def parseItems : Nat → List Char → List Json → Option (List Json × List Char)
  | 0, _, _ => none
  | fuel + 1, cs, acc =>
    match parseValue fuel cs with
    | some (v, r1) =>
      match skipWs r1 with
      | [] => none
      | sep :: r2 =>
        if sep = ',' then
          match skipWs r2 with
          | [] => none
          | k :: r3 => parseItems fuel (k :: r3) (acc ++ [v])
        else if sep = ']' then some (acc ++ [v], r2)
        else none
    | none => none

end

/-- Model of Python json.loads restricted to strict JSON. The fuel is ample: every
two fuel units consume at least one input character. Returns none exactly when
json.loads raises JSONDecodeError. -/
def jsonLoads (s : String) : Option Json :=
  match parseValue (2 * s.length + 2) s.data with
  | some (v, rest) => if skipWs rest = [] then some v else none
  | none => none

/-
  mission_planner/schemas.py: the pydantic data model and its validation semantics.
-/

/-- Action of schemas.py: an action name and a flat string-to-string parameter map
(the pydantic field Dict with a default of the empty dict). The map is modelled as
the association list produced by the JSON parser, whose objects are key-deduplicated
the way Python dicts are. -/
structure Action where
  action : String
  parameters : List (String × String)
deriving DecidableEq

/-- MissionPlan of schemas.py: a mission name and a list of actions (the pydantic
field List with a default of the empty list). -/
structure MissionPlan where
  mission_name : String
  actions : List Action
deriving DecidableEq

/-- One component of a pydantic error location: a model field, a list index, or a
dictionary key. -/
inductive Loc where
  | fld (name : String) : Loc
  | idx (i : Nat) : Loc
  | key (name : String) : Loc
deriving DecidableEq

/-- One pydantic validation error: its location path and its message. -/
abbrev ValItem := List Loc × String

/-- A pydantic ValidationError carries a list of individual errors. -/
abbrev ValErrors := List ValItem

/-- Lookup of a key in a parsed JSON object. Objects coming out of the parser carry
each key once, so first match and Python dict lookup agree. -/
def jsonLookup (fields : List (String × Json)) (k : String) : Option Json :=
  (fields.find? (fun p => p.1 == k)).map (fun p => p.2)

/-- Combine two validation results, accumulating errors from both sides the way
pydantic reports every failing field of a model at once. -/
def collect2 {α β : Type} : Except ValErrors α → Except ValErrors β →
    Except ValErrors (α × β)
  | .ok a, .ok b => .ok (a, b)
  | .ok _, .error e => .error e
  | .error e, .ok _ => .error e
  | .error e1, .error e2 => .error (e1 ++ e2)

/-- Combine a list of validation results, accumulating all errors in order. -/
def collectList {α : Type} : List (Except ValErrors α) → Except ValErrors (List α)
  | [] => .ok []
  | x :: xs =>
    match collect2 x (collectList xs) with
    | .ok (a, l) => .ok (a :: l)
    | .error e => .error e

/-- Validate one entry of a parameters dictionary against the declared value type
str: pydantic v2 accepts only JSON strings here, rejecting numbers, booleans,
lists, objects and null, and the error location names the offending key. -/
def validateParamPair (loc : List Loc) (p : String × Json) :
    Except ValErrors (String × String) :=
  match p.2 with
  | .str s => .ok (p.1, s)
  | _ => .error [(loc ++ [.key p.1], "Input should be a valid string")]

/-- Validate the parameters field against Dict of str to str. -/
def validateParameters (loc : List Loc) (j : Json) :
    Except ValErrors (List (String × String)) :=
  match j with
  | .obj fields => collectList (fields.map (validateParamPair loc))
  | _ => .error [(loc, "Input should be a valid dictionary")]

/-- Validate the required action field of an Action model: any JSON string is
accepted; no vocabulary is declared in schemas.py. -/
def validateActionName (loc : List Loc) (fields : List (String × Json)) :
    Except ValErrors String :=
  match jsonLookup fields "action" with
  | some (.str s) => .ok s
  | some _ => .error [(loc ++ [.fld "action"], "Input should be a valid string")]
  | none => .error [(loc ++ [.fld "action"], "Field required")]

/-- Validate the parameters field of an Action model, defaulting to the empty
dict when the field is absent. -/
def validateActionParams (loc : List Loc) (fields : List (String × Json)) :
    Except ValErrors (List (String × String)) :=
  match jsonLookup fields "parameters" with
  | some v => validateParameters (loc ++ [.fld "parameters"]) v
  | none => .ok []

/-- Validate one element of the actions list against the Action model: the action
field is a required string, the parameters field defaults to the empty dict. No
per-action parameter contract is declared in schemas.py. -/
def Action.model_validate_at (loc : List Loc) (j : Json) : Except ValErrors Action :=
  match j with
  | .obj fields =>
    match collect2 (validateActionName loc fields) (validateActionParams loc fields) with
    | .ok (a, p) => .ok ⟨a, p⟩
    | .error e => .error e
  | _ => .error [(loc, "Input should be a valid dictionary")]

/-- Validate each element of the actions array at its index, i being the index of
the first element of the remaining list. -/
def validateActionsFrom (i : Nat) : List Json → List (Except ValErrors Action)
  | [] => []
  | x :: xs =>
    Action.model_validate_at [.fld "actions", .idx i] x :: validateActionsFrom (i + 1) xs

/-- Validate the required mission_name field of a MissionPlan: any JSON string is
accepted, with no non-emptiness constraint. -/
def validateMissionName (fields : List (String × Json)) : Except ValErrors String :=
  match jsonLookup fields "mission_name" with
  | some (.str s) => .ok s
  | some _ => .error [([.fld "mission_name"], "Input should be a valid string")]
  | none => .error [([.fld "mission_name"], "Field required")]

/-- Validate the actions field of a MissionPlan, defaulting to the empty list
when the field is absent. -/
def validateActionsField (fields : List (String × Json)) :
    Except ValErrors (List Action) :=
  match jsonLookup fields "actions" with
  | some (.arr xs) => collectList (validateActionsFrom 0 xs)
  | some _ => .error [([.fld "actions"], "Input should be a valid list")]
  | none => .ok []

/-- Validate a parsed JSON document against the MissionPlan model. -/
def MissionPlan.model_validate (j : Json) : Except ValErrors MissionPlan :=
  match j with
  | .obj fields =>
    match collect2 (validateMissionName fields) (validateActionsField fields) with
    | .ok (n, acts) => .ok ⟨n, acts⟩
    | .error e => .error e
  | _ => .error [([], "Input should be a valid dictionary")]

/-- Pydantic v2 model_validate_json: parse the text as JSON, then validate the
resulting document. -/
def MissionPlan.model_validate_json (s : String) : Except ValErrors MissionPlan :=
  match jsonLoads s with
  | some j => MissionPlan.model_validate j
  | none => .error [([], "Invalid JSON")]

/-
  mission_planner/model_interface.py: the message and response value types.
-/

/-- LLMMessage of model_interface.py: one conversational turn. -/
structure LLMMessage where
  role : String
  content : String
deriving DecidableEq

/-- LLMResponse of model_interface.py. The raw_response debugging payload is an
untyped dict in the source and plays no role in any claim; it is omitted. -/
structure LLMResponse where
  content : String
  tokens_used : Option Nat

/-
  mission_planner/planner.py: JSON block extraction and the repair-and-retry loop.
  The external generator (BaseLLM.generate) is an opaque collaborator and is
  modelled as a function argument from the message history to a response.
-/

namespace MissionPlanner

/-- Index of the first opening brace or bracket, as re.search finds it. -/
def findBracketIdx : List Char → Option Nat
  | [] => none
  | c :: cs =>
    if c = lbraceC ∨ c = '[' then some 0
    else (findBracketIdx cs).map (· + 1)

/-- The scanning loop of _extract_json_block: walk the text from the first opening
delimiter keeping a nesting depth of the chosen delimiter pair; whenever the depth
returns to zero, test the span accumulated so far with json.loads and return it on
success, otherwise keep scanning. The depth is an integer because the Python
counter can go negative after a failed candidate. -/
def scanBlock (openC closeC : Char) : List Char → Int → List Char → Option String
  | [], _, _ => none
  | c :: cs, depth, acc =>
    if c = openC then scanBlock openC closeC cs (depth + 1) (c :: acc)
    else if c = closeC then
      if depth - 1 = 0 then
        match jsonLoads (String.mk (c :: acc).reverse) with
        | some _ => some (String.mk (c :: acc).reverse)
        | none => scanBlock openC closeC cs (depth - 1) (c :: acc)
      else scanBlock openC closeC cs (depth - 1) (c :: acc)
    else scanBlock openC closeC cs depth (c :: acc)

/-- Model of MissionPlanner._extract_json_block: find the first opening brace or
bracket, pick the matching close character from that first delimiter, and scan for
a balanced span that json.loads accepts. Every candidate starts at the first
delimiter; only the end of the span moves forward on a parse failure. -/
def extract_json_block (text : String) : Option String :=
  if text = "" then none
  else
    match findBracketIdx text.data with
    | none => none
    | some start =>
      match text.data.drop start with
      | [] => none
      | c :: rest =>
        let closeC := if c = lbraceC then rbraceC else ']'
        scanBlock c closeC (c :: rest) 0 []

/-- The fixed system instruction of planner.py. The text is transcribed from the
source; exact interior whitespace is immaterial to every claim. -/
def SYSTEM_PROMPT : String :=
  "You are a mission planning assistant for a robotic rover.\n\n" ++
  "Your output MUST be exactly ONE JSON object. No markdown, no prose, no explanations.\n" ++
  "Never output multiple JSON objects.\n\n" ++
  "The JSON MUST follow this schema:\n\n" ++
  "\x7b\n    \"mission_name\": \"<string>\",\n    \"actions\": [\n        \x7b\n" ++
  "            \"action\": \"<string>\",\n            \"parameters\": \x7b\n" ++
  "                \"<key>\": \"<string value>\"\n            \x7d\n        \x7d\n    ]\n\x7d\n\n" ++
  "RULES:\n\n" ++
  "1. The plan MUST contain:\n    - exactly one \"mission_name\"\n" ++
  "    - exactly one \"actions\" array\n" ++
  "    - all actions described by the user, in strict chronological order.\n\n" ++
  "2. Every action MUST have a \"parameters\" object.\n" ++
  "   All values MUST be strings. No numbers, no lists, no booleans.\n\n" ++
  "3. COORDINATES:\n   Whenever the user gives coordinates (e.g., \"(400, 250)\"),\n" ++
  "   you MUST place them in \"parameters\" using EXACTLY:\n" ++
  "       \"target_x\": \"<string>\"\n       \"target_y\": \"<string>\"\n" ++
  "   Never use any other key names.\n   Never place coordinates outside \"parameters\".\n\n" ++
  "4. ALLOWED ACTIONS (you may NOT output any other action):\n" ++
  "    - \"move_to\" with parameters: target_x, target_y, speed (optional)\n" ++
  "    - \"take_photo\" with parameters: resolution, zoom (optional)\n" ++
  "    - \"wait\" with parameters: duration\n" ++
  "    - \"pick_up\" with parameters ALWAYS equal to \x7b\x7d\n" ++
  "    - \"drop_off\" with parameters ALWAYS equal to \x7b\x7d\n\n" ++
  "5.  - A \"pick_up\" action can only occur if the robot is currently not carrying a sample.\n" ++
  "    - A \"drop_off\" action can only occur if the robot is carrying a sample.\n" ++
  "    - Do not generate multiple \"pick_up\" or \"drop_off\" actions for the same sample unless explicitly instructed.\n" ++
  "    - The order of actions must strictly follow the mission steps described, without inventing extra actions.\n\n" ++
  "6. Whenever you output \"pick_up\" or \"drop_off\", the parameters MUST be exactly:\n" ++
  "        \"parameters\": \x7b\x7d\n" ++
  "7. You MUST translate user instructions using ONLY the allowed actions.\n" ++
  "   If the user describes an action that is not in this list, convert it to the closest allowed one.\n" ++
  "   You MUST NOT invent new action names.\n\n" ++
  "8. Never output more than ONE JSON object. No text before or after.\n\n" ++
  "9. If the mission cannot be generated, output only:\n" ++
  "\x7b\"error\": \"Cannot generate mission\"\x7d\n"

/-- Model of MissionPlanner._build_prompt: a fixed system message plus the user
instruction, with the constraints block appended only when the constraints string
is truthy (present and non-empty). -/
def build_prompt (instruction : String) (constraints : Option String) :
    List LLMMessage :=
  let user_text :=
    "Instruction:\n" ++ instruction.trim ++
      (match constraints with
       | some c => if c = "" then "" else "\n\nConstraints:\n" ++ c.trim
       | none => "")
  [⟨"system", SYSTEM_PROMPT⟩, ⟨"user", user_text⟩]

/-- The corrective message appended when no JSON block was found. -/
def noJsonCorrection : LLMMessage :=
  ⟨"system",
    "Previous response did not contain parseable JSON. Please reply with a single JSON object (or array) only, matching the schema."⟩

/-- Rendering of a ValidationError for embedding into the corrective message. The
precise pydantic textual rendering is not modelled; no claim depends on it. -/
def renderErrors (es : ValErrors) : String :=
  String.intercalate "; " (es.map (fun e => e.2))

/-- The corrective message appended when validation of the extracted JSON failed,
embedding the specific error. -/
def validationCorrection (es : ValErrors) : LLMMessage :=
  ⟨"system",
    "The JSON you returned could not be validated against the mission schema. Validation error: " ++
      renderErrors es ++ ". Please return corrected JSON only."⟩

/-- The message of the terminal RuntimeError raised after the attempt budget is
exhausted. -/
def exhaustedMessage : String :=
  "Failed to generate a valid MissionPlan after multiple attempts."

/-- The attempt loop of generate_mission_plan. The natural number result counts
the generator invocations this call performed. Each failed attempt appends the
matching corrective system message to the history and retries; a successful
attempt returns the plan immediately; an exhausted budget yields the terminal
error. -/
def generateLoop (gen : List LLMMessage → LLMResponse) :
    List LLMMessage → Nat → Except String MissionPlan × Nat
  | _, 0 => (.error exhaustedMessage, 0)
  | messages, n + 1 =>
    let text := (gen messages).content
    match extract_json_block text with
    | none =>
      let r := generateLoop gen (messages ++ [noJsonCorrection]) n
      (r.1, r.2 + 1)
    | some json_text =>
      match MissionPlan.model_validate_json json_text with
      | .ok plan => (.ok plan, 1)
      | .error e =>
        let r := generateLoop gen (messages ++ [validationCorrection e]) n
        (r.1, r.2 + 1)

/-- Model of MissionPlanner.generate_mission_plan: build the prompt, then run the
bounded repair-and-retry loop. The second component counts generator calls. -/
def generate_mission_plan (gen : List LLMMessage → LLMResponse)
    (instruction : String) (constraints : Option String) (max_attempts : Nat) :
    Except String MissionPlan × Nat :=
  generateLoop gen (build_prompt instruction constraints) max_attempts

end MissionPlanner

/-
  simulation/pygame_simulation.py: the robot state machine and its helpers.
  Coordinates, heading and the wait timer are Python floats, modelled as real
  numbers exactly; pixels-per-second arithmetic stays symbolic.
-/

/-- The module constant ROBOT_MAX_SPEED of pygame_simulation.py. -/
noncomputable def ROBOT_MAX_SPEED : ℝ := 150

/-- State of the Robot class, the fields in declaration order of Robot.__init__.
The speed and angular_speed fields are initialized by the constructor and never
read or written afterwards. -/
structure Robot where
  x : ℝ
  y : ℝ
  angle : ℝ
  speed : ℝ
  angular_speed : ℝ
  target_pos : Option (ℝ × ℝ)
  carrying_sample : Bool
  wait_timer : ℝ

/-- Python math.atan2 y x, which equals the complex argument of x + i y. -/
noncomputable def atan2 (y x : ℝ) : ℝ := Complex.arg ⟨x, y⟩

/-- Strip leading and trailing whitespace. -/
def trimWsChars (cs : List Char) : List Char :=
  ((cs.dropWhile isJsonWs).reverse.dropWhile isJsonWs).reverse

/-- Model of Python float(str) for ordinary finite decimal literals with an
optional exponent: optional sign, digits with at most one decimal point and at
least one mantissa digit, optional exponent part. Digit-group underscores and the
inf and nan spellings are not modelled; no claim exercises them. Returns none
exactly when float(...) raises ValueError. -/
def pyFloat (s : String) : Option ℚ :=
  let cs := trimWsChars s.data
  let signSplit : ℚ × List Char :=
    match cs with
    | c :: t => if c = '-' then (-1, t) else if c = '+' then (1, t) else (1, cs)
    | [] => (1, cs)
  let intSplit := takeDigits signSplit.2
  let ip := intSplit.1
  let fracSplit : List Char × List Char :=
    match intSplit.2 with
    | dot :: u => if dot = '.' then takeDigits u else ([], intSplit.2)
    | [] => ([], intSplit.2)
  let fp := fracSplit.1
  let rest : List Char :=
    match intSplit.2 with
    | dot :: _ => if dot = '.' then fracSplit.2 else intSplit.2
    | [] => intSplit.2
  if ip = [] ∧ fp = [] then none
  else
    let mant : ℚ :=
      signSplit.1 * ((digitsVal ip : ℚ) + (digitsVal fp : ℚ) / (10 : ℚ) ^ fp.length)
    match rest with
    | [] => some mant
    | e :: u =>
      if e = 'e' ∨ e = 'E' then
        let esignSplit : Int × List Char :=
          match u with
          | s1 :: w => if s1 = '-' then (-1, w) else if s1 = '+' then (1, w) else (1, u)
          | [] => (1, u)
        let edSplit := takeDigits esignSplit.2
        if edSplit.1 = [] ∨ edSplit.2 ≠ [] then none
        else some (mant * (10 : ℚ) ^ (esignSplit.1 * (digitsVal edSplit.1 : Int)))
      else none

/-- Match the mandatory digits* dot? digits+ part of the numeric-token regex at
the head of the input, the sign already consumed, returning the float() value of
the signed matched token. The greedy backtracking of the regex amounts to: a
fractional part is taken only when the dot is directly followed by a digit,
otherwise the integer digits alone match, and at least one digit is required. -/
def matchNumberBody (sgn : ℚ) (cs : List Char) : Option ℚ :=
  match takeDigits cs with
  | (ip, dot :: u) =>
    if dot = '.' then
      if (takeDigits u).1 ≠ [] then
        some (sgn * ((digitsVal ip : ℚ) +
          (digitsVal (takeDigits u).1 : ℚ) / (10 : ℚ) ^ (takeDigits u).1.length))
      else if ip ≠ [] then some (sgn * (digitsVal ip : ℚ))
      else none
    else if ip ≠ [] then some (sgn * (digitsVal ip : ℚ))
    else none
  | (ip, []) => if ip ≠ [] then some (sgn * (digitsVal ip : ℚ)) else none

/-- Attempt to match the regex sign? digits* dot? digits+ at the head of the
input, greedily, the way re.search tries each start position. -/
def matchNumberAt (cs : List Char) : Option ℚ :=
  match cs with
  | c :: t =>
    if c = '-' then matchNumberBody (-1) t
    else if c = '+' then matchNumberBody 1 t
    else matchNumberBody 1 (c :: t)
  | [] => matchNumberBody 1 []

/-- Leftmost match of the numeric-token regex over the whole input, as re.search
scans successive start positions. -/
def searchNumber : List Char → Option ℚ
  | [] => none
  | c :: cs =>
    match matchNumberAt (c :: cs) with
    | some q => some q
    | none => searchNumber cs

/-- Model of extract_number in pygame_simulation.py: a non-string argument is
converted directly by float(); a string is searched for the first numeric token
of the regex sign? digits* dot? digits+, and the default is returned when no
token is found. -/
def extract_number (value : String ⊕ ℚ) (default : ℚ) : ℚ :=
  match value with
  | .inr q => q
  | .inl s =>
    match searchNumber s.data with
    | some q => q
    | none => default

/-- First-match lookup in an action's parameter map; parameter maps come from
parsed JSON objects, which carry each key once. -/
def paramLookup (ps : List (String × String)) (k : String) : Option String :=
  (ps.find? (fun p => p.1 == k)).map (fun p => p.2)

/-- The expression float(params.get(key, fallback)) of the move_to branch, where
the fallback is the current coordinate (already a float). A present but
non-numeric string raises ValueError, modelled as the error case. -/
noncomputable def getFloatParam (ps : List (String × String)) (k : String)
    (fallback : ℝ) : Except String ℝ :=
  match paramLookup ps k with
  | none => .ok fallback
  | some v =>
    match pyFloat v with
    | some q => .ok (q : ℝ)
    | none => .error ("could not convert string to float: " ++ v)

/-- The body of the movement block for an active target (tx, ty): snap to the
target and clear it when the remaining distance math.hypot dx dy is below 1,
otherwise advance by min of ROBOT_MAX_SPEED * dt and the distance and update the
heading with atan2. The dx, dy, dist and move_dist locals of the source are
written inline. -/
noncomputable def moveToTarget (s : Robot) (tx ty : ℝ) (dt : ℝ) : Robot :=
  if Real.sqrt ((tx - s.x) ^ 2 + (ty - s.y) ^ 2) < 1 then
    { s with x := tx, y := ty, target_pos := none }
  else
    { s with
      x := s.x + (tx - s.x) / Real.sqrt ((tx - s.x) ^ 2 + (ty - s.y) ^ 2) *
        min (ROBOT_MAX_SPEED * dt) (Real.sqrt ((tx - s.x) ^ 2 + (ty - s.y) ^ 2)),
      y := s.y + (ty - s.y) / Real.sqrt ((tx - s.x) ^ 2 + (ty - s.y) ^ 2) *
        min (ROBOT_MAX_SPEED * dt) (Real.sqrt ((tx - s.x) ^ 2 + (ty - s.y) ^ 2)),
      angle := atan2 (ty - s.y) (tx - s.x) }

/-- One copy of the movement block at the end of Robot.step. The block is written
twice in the source, so step applies this function twice. A non-empty tuple is
truthy in Python, hence the match on the optional target. -/
noncomputable def moveStep (s : Robot) (dt : ℝ) : Robot :=
  match s.target_pos with
  | none => s
  | some tp => moveToTarget s tp.1 tp.2 dt

/-- The argument handed to extract_number by the wait branch: the duration
parameter when present, otherwise the non-string default 1 of dict.get. -/
def waitDurationArg (ps : List (String × String)) : String ⊕ ℚ :=
  match paramLookup ps "duration" with
  | some v => .inl v
  | none => .inr 1

/-- Model of Robot.step. The integer in the result is the net change step itself
applies to the global current_action_index (the wait-timer branch decrements it);
the error case models the ValueError float() raises on a non-numeric move_to
coordinate string. An active wait timer short-circuits everything else; the wait
branch returns before the movement blocks; every other branch falls through to
the two movement blocks. -/
noncomputable def Robot.step (s : Robot) (action : Action) (dt : ℝ) :
    Except String (Robot × Int) :=
  if s.wait_timer > 0 then
    .ok ({ s with wait_timer := s.wait_timer - dt }, -1)
  else if action.action = "move_to" then
    match getFloatParam action.parameters "target_x" s.x with
    | .error e => .error e
    | .ok target_x =>
      match getFloatParam action.parameters "target_y" s.y with
      | .error e => .error e
      | .ok target_y =>
        .ok (moveStep (moveStep { s with target_pos := some (target_x, target_y) } dt) dt, 0)
  else if action.action = "pick_up" then
    .ok (moveStep (moveStep
      (if s.carrying_sample = false then { s with carrying_sample := true } else s) dt) dt, 0)
  else if action.action = "drop_off" then
    .ok (moveStep (moveStep
      (if s.carrying_sample = true then { s with carrying_sample := false } else s) dt) dt, 0)
  else if action.action = "take_photo" then
    .ok (moveStep (moveStep s dt) dt, 0)
  else if action.action = "wait" then
    .ok ((if s.wait_timer ≤ 0 then
      { s with wait_timer := ((extract_number (waitDurationArg action.parameters) 1 : ℚ) : ℝ) }
      else s), 0)
  else
    .ok (moveStep (moveStep s dt) dt, 0)

/-- Python list indexing, including the negative-index wraparound. -/
def pyListGet {α : Type} (l : List α) (i : Int) : Option α :=
  if 0 ≤ i then l.get? i.toNat
  else if (-i).toNat ≤ l.length then l.get? (l.length - (-i).toNat)
  else none

/-- One iteration of the action-execution part of the main loop: while the cursor
is inside the plan, run step on the current action and then advance the cursor
exactly when no movement target is in flight. The returned integer is the new
value of current_action_index. -/
noncomputable def mainTick (acts : List Action) (s : Robot) (idx : Int) (dt : ℝ) :
    Except String (Robot × Int) :=
  if idx < (acts.length : Int) then
    match pyListGet acts idx with
    | none => .error "IndexError: list index out of range"
    | some a =>
      match Robot.step s a dt with
      | .error e => .error e
      | .ok (s1, d) =>
        let idx1 := idx + d
        if s1.target_pos = none then .ok (s1, idx1 + 1) else .ok (s1, idx1)
  else .ok (s, idx)

/-
  Theorems for the frozen claims C1 to C10, with their helper lemmas.
-/

/-- Outcome of a single repair attempt on one reply text: the plan when the reply
contains an extractable block that validates, none otherwise. -/
def attemptOutcome (text : String) : Option MissionPlan :=
  match MissionPlanner.extract_json_block text with
  | none => none
  | some json_text =>
    match MissionPlan.model_validate_json json_text with
    | .ok plan => some plan
    | .error _ => none

lemma generateLoop_rejects (gen : List LLMMessage → LLMResponse)
    (H : ∀ msgs, attemptOutcome (gen msgs).content = none) :
    ∀ (n : Nat) (msgs : List LLMMessage),
      MissionPlanner.generateLoop gen msgs n =
        (.error MissionPlanner.exhaustedMessage, n) := by
  intro n
  induction n with
  | zero => intro msgs; rfl
  | succ n ih =>
    intro msgs
    have h := H msgs
    unfold attemptOutcome at h
    unfold MissionPlanner.generateLoop
    cases hE : MissionPlanner.extract_json_block (gen msgs).content with
    | none => simp only [hE, ih]
    | some jt =>
      simp only [hE] at h
      cases hV : MissionPlan.model_validate_json jt with
      | ok p => simp [hV] at h
      | error e => simp only [hE, hV, ih]

/-- C1: for every generator whose every reply yields no extractable-and-valid
plan, generate_mission_plan invokes the generator exactly max_attempts times and
then fails with the terminal RuntimeError, never returning a plan. The second
component of the result counts the generator invocations. -/
theorem spec_c1_attempts_exhausted (gen : List LLMMessage → LLMResponse)
    (instruction : String) (constraints : Option String) (max_attempts : Nat)
    (H : ∀ msgs, attemptOutcome (gen msgs).content = none) :
    MissionPlanner.generate_mission_plan gen instruction constraints max_attempts =
      (.error MissionPlanner.exhaustedMessage, max_attempts) :=
  generateLoop_rejects gen H max_attempts _

/-- Witness for C1: a generator that always answers fixed bracketless noise, a
budget of two attempts. -/
theorem spec_c1_attempts_exhausted_witness :
    MissionPlanner.generate_mission_plan (fun _ => ⟨"static noise", none⟩)
        "survey zone alpha" none 2 =
      (.error MissionPlanner.exhaustedMessage, 2) :=
  spec_c1_attempts_exhausted _ _ _ _ (fun _ => rfl)

lemma scanBlock_parses (openC closeC : Char) :
    ∀ (l : List Char) (d : Int) (acc : List Char) (c : String),
      MissionPlanner.scanBlock openC closeC l d acc = some c →
        (jsonLoads c).isSome = true := by
  intro l
  induction l with
  | nil => intro d acc c h; simp [MissionPlanner.scanBlock] at h
  | cons x xs ih =>
    intro d acc c h
    unfold MissionPlanner.scanBlock at h
    repeat' split at h
    any_goals exact ih _ _ _ h
    rename_i val hJ
    rw [Option.some_inj] at h
    subst h
    rw [hJ]
    rfl

/-- C7 (amended): the extractor only ever returns a candidate that json.loads
accepts, and after a first balanced-but-unparsable span it keeps scanning for a
longer span anchored at the same first delimiter (here a brace pair hidden inside
JSON strings), succeeding when such an extended span parses. It does not restart
at a later disjoint span; see the counterexample. -/
theorem spec_c7_extended_scan :
    (∀ (text c : String), MissionPlanner.extract_json_block text = some c →
      (jsonLoads c).isSome = true) ∧
    MissionPlanner.extract_json_block "\x7b\"a\": \"\x7d\", \"b\": \"\x7b\"\x7d" =
      some "\x7b\"a\": \"\x7d\", \"b\": \"\x7b\"\x7d" := by
  constructor
  · intro text c h
    unfold MissionPlanner.extract_json_block at h
    split at h
    · exact absurd h (by simp)
    · cases hF : MissionPlanner.findBracketIdx text.data with
      | none => simp only [hF] at h; simp at h
      | some start =>
        simp only [hF] at h
        cases hD : text.data.drop start with
        | nil => simp only [hD] at h; simp at h
        | cons c1 rest =>
          simp only [hD] at h
          exact scanBlock_parses _ _ _ _ _ _ h
  · rfl

/-- Witness for the universally quantified part of C7's theorem, instantiated at
the input whose first balanced span fails to parse. -/
theorem spec_c7_extended_scan_witness :
    (jsonLoads "\x7b\"a\": \"\x7d\", \"b\": \"\x7b\"\x7d").isSome = true :=
  spec_c7_extended_scan.1 _ _ spec_c7_extended_scan.2

/-- C7 (counterexample): the first balanced span of this input fails to parse and
a later disjoint balanced span parses, yet the extractor returns none, because
every candidate it tries is anchored at the first opening delimiter. -/
theorem spec_c7_counterexample :
    MissionPlanner.extract_json_block "\x7ba\x7d \x7b\x7d" = none ∧
    (jsonLoads "\x7ba\x7d").isSome = false ∧
    (jsonLoads "\x7b\x7d").isSome = true :=
  ⟨rfl, rfl, rfl⟩

lemma collect2_error_left {α β : Type} (y : Except ValErrors β) (ex : ValErrors)
    (e : ValItem) (he : e ∈ ex) :
    ∃ es, collect2 (α := α) (.error ex) y = .error es ∧ e ∈ es := by
  cases y with
  | ok b => exact ⟨ex, rfl, he⟩
  | error ey => exact ⟨ex ++ ey, rfl, List.mem_append_left _ he⟩

lemma collect2_error_right {α β : Type} (x : Except ValErrors α) (ey : ValErrors)
    (e : ValItem) (he : e ∈ ey) :
    ∃ es, collect2 (β := β) x (.error ey) = .error es ∧ e ∈ es := by
  cases x with
  | ok a => exact ⟨ey, rfl, he⟩
  | error ex => exact ⟨ex ++ ey, rfl, List.mem_append_right _ he⟩

lemma collectList_cons {α : Type} (x : Except ValErrors α)
    (xs : List (Except ValErrors α)) :
    collectList (x :: xs) =
      match collect2 x (collectList xs) with
      | .ok (a, l) => .ok (a :: l)
      | .error e => .error e := rfl

lemma collectList_error_mem {α : Type} (xs : List (Except ValErrors α))
    (ex : ValErrors) (e : ValItem) (hx : Except.error ex ∈ xs) (he : e ∈ ex) :
    ∃ es, collectList xs = .error es ∧ e ∈ es := by
  induction xs with
  | nil => cases hx
  | cons y ys ih =>
    rcases List.mem_cons.mp hx with h | h
    · subst h
      obtain ⟨es, hes, hmem⟩ := collect2_error_left (collectList ys) ex e he
      refine ⟨es, ?_, hmem⟩
      rw [collectList_cons, hes]
    · obtain ⟨es1, hes1, hmem1⟩ := ih h
      obtain ⟨es, hes, hmem⟩ := collect2_error_right y es1 e hmem1
      refine ⟨es, ?_, hmem⟩
      rw [collectList_cons, hes1, hes]

/-- JSON encoding of an action name together with a flat string-to-string
parameter map, the shape the planner's system instruction requests. -/
def actionToJson (p : String × List (String × String)) : Json :=
  .obj [("action", .str p.1),
        ("parameters", .obj (p.2.map (fun kv => (kv.1, Json.str kv.2))))]

lemma validateParameters_strings (loc : List Loc) (ps : List (String × String)) :
    validateParameters loc (.obj (ps.map (fun kv => (kv.1, Json.str kv.2)))) = .ok ps := by
  have key : ∀ l : List (String × String),
      collectList (l.map (fun kv => validateParamPair loc (kv.1, Json.str kv.2))) = .ok l := by
    intro l
    induction l with
    | nil => rfl
    | cons kv rest ih =>
      rw [List.map_cons, collectList_cons, ih]
      rfl
  calc validateParameters loc (.obj (ps.map (fun kv => (kv.1, Json.str kv.2))))
      = collectList ((ps.map (fun kv => (kv.1, Json.str kv.2))).map (validateParamPair loc)) := rfl
    _ = collectList (ps.map (fun kv => validateParamPair loc (kv.1, Json.str kv.2))) := by
        rw [List.map_map]
        rfl
    _ = .ok ps := key ps

lemma model_validate_at_actionToJson (loc : List Loc)
    (p : String × List (String × String)) :
    Action.model_validate_at loc (actionToJson p) = .ok ⟨p.1, p.2⟩ := by
  have key : Action.model_validate_at loc (actionToJson p) =
      match collect2 (Except.ok p.1)
          (validateParameters (loc ++ [Loc.fld "parameters"])
            (.obj (p.2.map (fun kv => (kv.1, Json.str kv.2))))) with
      | .ok (a, par) => .ok (⟨a, par⟩ : Action)
      | .error e => .error e := rfl
  rw [key, validateParameters_strings]
  rfl

lemma collectList_actionsFrom_ok (acts : List (String × List (String × String))) :
    ∀ i : Nat, collectList (validateActionsFrom i (acts.map actionToJson)) =
      .ok (acts.map (fun p => (⟨p.1, p.2⟩ : Action))) := by
  induction acts with
  | nil => intro i; rfl
  | cons p rest ih =>
    intro i
    rw [List.map_cons]
    rw [show validateActionsFrom i (actionToJson p :: rest.map actionToJson) =
          Action.model_validate_at [Loc.fld "actions", Loc.idx i] (actionToJson p) ::
            validateActionsFrom (i + 1) (rest.map actionToJson) from rfl]
    rw [collectList_cons, ih (i + 1), model_validate_at_actionToJson]
    rfl

/-- C3 (amended): the schema enforces no per-action parameter contract. Any
action object with a string name and a flat string-to-string parameters map is
accepted by validation, whatever the name and whatever the keys, so a move_to
without target_x and target_y and a pick_up or drop_off with non-empty
parameters all validate. -/
theorem spec_c3_no_per_action_contract (name : String)
    (acts : List (String × List (String × String))) :
    MissionPlan.model_validate
        (.obj [("mission_name", .str name), ("actions", .arr (acts.map actionToJson))]) =
      .ok ⟨name, acts.map (fun p => (⟨p.1, p.2⟩ : Action))⟩ := by
  have key : MissionPlan.model_validate
      (.obj [("mission_name", .str name), ("actions", .arr (acts.map actionToJson))]) =
      match collect2 (Except.ok name)
          (collectList (validateActionsFrom 0 (acts.map actionToJson))) with
      | .ok (n, l) => .ok (⟨n, l⟩ : MissionPlan)
      | .error e => .error e := rfl
  rw [key, collectList_actionsFrom_ok]
  rfl

/-- C3 (counterexample): validation accepts a move_to action carrying neither
target_x nor target_y and a pick_up action with a non-empty parameters map, where
the claim requires both to be rejected. -/
theorem spec_c3_counterexample :
    MissionPlan.model_validate_json
        "\x7b\"mission_name\": \"m\", \"actions\": [\x7b\"action\": \"move_to\"\x7d, \x7b\"action\": \"pick_up\", \"parameters\": \x7b\"foo\": \"bar\"\x7d\x7d]\x7d" =
      .ok ⟨"m", [⟨"move_to", []⟩, ⟨"pick_up", [("foo", "bar")]⟩]⟩ := by
  rfl

/-- C8 (amended): validation rejects a candidate whose mission_name field is
absent, reporting the missing field; but an empty-string mission_name is
accepted, and an absent actions field is accepted and defaults to the empty
list rather than being rejected. -/
theorem spec_c8_structural_validation :
    (∀ fields : List (String × Json), jsonLookup fields "mission_name" = none →
      ∃ es, MissionPlan.model_validate (.obj fields) = .error es ∧
        ([Loc.fld "mission_name"], "Field required") ∈ es) ∧
    (∀ name : String,
      MissionPlan.model_validate (.obj [("mission_name", .str name)]) = .ok ⟨name, []⟩) := by
  constructor
  · intro fields h
    have hn : validateMissionName fields =
        .error [([Loc.fld "mission_name"], "Field required")] := by
      unfold validateMissionName
      rw [h]
    obtain ⟨es, hes, hmem⟩ := collect2_error_left (validateActionsField fields)
      [([Loc.fld "mission_name"], "Field required")] _ (List.mem_singleton.mpr rfl)
    refine ⟨es, ?_, hmem⟩
    have key : MissionPlan.model_validate (.obj fields) =
        match collect2 (validateMissionName fields) (validateActionsField fields) with
        | .ok (n, l) => .ok (⟨n, l⟩ : MissionPlan)
        | .error e => .error e := rfl
    rw [key, hn, hes]
  · intro name
    rfl

/-- Witness for the missing-field half of C8's theorem, at the empty document. -/
theorem spec_c8_structural_validation_witness :
    ∃ es, MissionPlan.model_validate (.obj []) = .error es ∧
      ([Loc.fld "mission_name"], "Field required") ∈ es :=
  spec_c8_structural_validation.1 [] rfl

/-- C8 (counterexample): a candidate whose mission_name is the empty string and
whose actions field is absent is accepted by validation, where the claim
requires both conditions to cause rejection. -/
theorem spec_c8_counterexample :
    MissionPlan.model_validate_json "\x7b\"mission_name\": \"\"\x7d" =
      .ok ⟨"", []⟩ := by
  rfl

lemma validateActionsFrom_get (xs : List Json) :
    ∀ (i j : Nat) (x : Json), xs.get? j = some x →
      (validateActionsFrom i xs).get? j =
        some (Action.model_validate_at [.fld "actions", .idx (i + j)] x) := by
  induction xs with
  | nil => intro i j x hx; simp at hx
  | cons y ys ih =>
    intro i j x hx
    cases j with
    | zero =>
      rw [List.get?_cons_zero, Option.some_inj] at hx
      subst hx
      rfl
    | succ j =>
      rw [List.get?_cons_succ] at hx
      have hrec := ih (i + 1) j x hx
      rw [show i + 1 + j = i + (j + 1) from by omega] at hrec
      exact hrec

lemma validateParameters_bad_value (loc : List Loc)
    (pfields : List (String × Json)) (k : String) (v : Json)
    (hk : jsonLookup pfields k = some v) (hv : v.isStr = false) :
    ∃ es, validateParameters loc (.obj pfields) = .error es ∧
      (loc ++ [Loc.key k], "Input should be a valid string") ∈ es := by
  obtain ⟨p, hfind, hval⟩ : ∃ p, pfields.find? (fun q => q.1 == k) = some p ∧ p.2 = v := by
    unfold jsonLookup at hk
    cases hfind : pfields.find? (fun q => q.1 == k) with
    | none => rw [hfind] at hk; exact Option.noConfusion hk
    | some p =>
      rw [hfind] at hk
      exact ⟨p, rfl, Option.some_inj.mp hk⟩
  have hkey : p.1 = k := by
    have := List.find?_some hfind
    simpa using this
  have hmemp : p ∈ pfields := List.mem_of_find?_eq_some hfind
  have hbad : validateParamPair loc p =
      .error [(loc ++ [Loc.key k], "Input should be a valid string")] := by
    unfold validateParamPair
    rw [hkey, hval]
    cases v with
    | str s => simp [Json.isStr] at hv
    | null => rfl
    | bool b => rfl
    | num q => rfl
    | arr items => rfl
    | obj fs => rfl
  have hmem : Except.error [(loc ++ [Loc.key k], "Input should be a valid string")] ∈
      pfields.map (validateParamPair loc) := by
    rw [← hbad]
    exact List.mem_map_of_mem _ hmemp
  obtain ⟨es, hes, hin⟩ := collectList_error_mem _ _ _ hmem (List.mem_singleton.mpr rfl)
  exact ⟨es, by unfold validateParameters; exact hes, hin⟩

/-- C4: for every candidate JSON text in which some action's parameters map binds
a key to a non-string value (a number, boolean, list, object or null), validation
fails rather than producing a MissionPlan, and the error list contains an entry
locating the offending action index and parameter key. -/
theorem spec_c4_param_value_rejected (txt : String)
    (fields : List (String × Json)) (acts : List Json)
    (afields pfields : List (String × Json)) (i : Nat) (k : String) (v : Json)
    (hparse : jsonLoads txt = some (.obj fields))
    (hacts : jsonLookup fields "actions" = some (.arr acts))
    (hi : acts.get? i = some (.obj afields))
    (hp : jsonLookup afields "parameters" = some (.obj pfields))
    (hk : jsonLookup pfields k = some v)
    (hv : v.isStr = false) :
    ∃ es, MissionPlan.model_validate_json txt = .error es ∧
      ([Loc.fld "actions", Loc.idx i, Loc.fld "parameters", Loc.key k],
        "Input should be a valid string") ∈ es := by
  obtain ⟨ep, hep, hmemp⟩ := validateParameters_bad_value
    ([Loc.fld "actions", Loc.idx i] ++ [Loc.fld "parameters"]) pfields k v hk hv
  have hparams : validateActionParams [Loc.fld "actions", Loc.idx i] afields = .error ep := by
    unfold validateActionParams
    rw [hp]
    exact hep
  obtain ⟨ea, hea, hmema⟩ := collect2_error_right
    (validateActionName [Loc.fld "actions", Loc.idx i] afields) ep _ hmemp
  have haction : Action.model_validate_at [Loc.fld "actions", Loc.idx i] (.obj afields) =
      .error ea := by
    have key : Action.model_validate_at [Loc.fld "actions", Loc.idx i] (.obj afields) =
        match collect2 (validateActionName [Loc.fld "actions", Loc.idx i] afields)
            (validateActionParams [Loc.fld "actions", Loc.idx i] afields) with
        | .ok (a, par) => .ok (⟨a, par⟩ : Action)
        | .error e => .error e := rfl
    rw [key, hparams, hea]
  have hget := validateActionsFrom_get acts 0 i (.obj afields) hi
  rw [Nat.zero_add] at hget
  have hmemlist : Except.error ea ∈ validateActionsFrom 0 acts := by
    rw [← haction]
    exact List.get?_mem hget
  obtain ⟨eA, heA, hmemA⟩ := collectList_error_mem _ _ _ hmemlist hmema
  have hfield : validateActionsField fields = .error eA := by
    unfold validateActionsField
    rw [hacts]
    exact heA
  obtain ⟨es, hes, hmemes⟩ := collect2_error_right (validateMissionName fields) eA _ hmemA
  refine ⟨es, ?_, by simpa using hmemes⟩
  unfold MissionPlan.model_validate_json
  rw [hparse]
  show MissionPlan.model_validate (.obj fields) = Except.error es
  have key : MissionPlan.model_validate (.obj fields) =
      match collect2 (validateMissionName fields) (validateActionsField fields) with
      | .ok (n, l) => .ok (⟨n, l⟩ : MissionPlan)
      | .error e => .error e := rfl
  rw [key, hfield, hes]

/-- Witness for C4: a wait action whose duration parameter is the JSON boolean
true rather than a string. -/
theorem spec_c4_param_value_rejected_witness :
    ∃ es, MissionPlan.model_validate_json
        "\x7b\"mission_name\": \"m\", \"actions\": [\x7b\"action\": \"wait\", \"parameters\": \x7b\"duration\": true\x7d\x7d]\x7d" =
        .error es ∧
      ([Loc.fld "actions", Loc.idx 0, Loc.fld "parameters", Loc.key "duration"],
        "Input should be a valid string") ∈ es :=
  spec_c4_param_value_rejected _
    [("mission_name", .str "m"),
     ("actions", .arr [.obj [("action", .str "wait"), ("parameters", .obj [("duration", .bool true)])]])]
    [.obj [("action", .str "wait"), ("parameters", .obj [("duration", .bool true)])]]
    [("action", .str "wait"), ("parameters", .obj [("duration", .bool true)])]
    [("duration", .bool true)] 0 "duration" (.bool true) rfl rfl rfl rfl rfl rfl

/-
  Branch and frame lemmas for Robot.step and the movement block.
-/

lemma step_timer_active (s : Robot) (a : Action) (dt : ℝ) (h : s.wait_timer > 0) :
    Robot.step s a dt = .ok ({ s with wait_timer := s.wait_timer - dt }, -1) := by
  unfold Robot.step
  rw [if_pos h]

lemma step_move_to (s : Robot) (a : Action) (dt : ℝ)
    (h : ¬ s.wait_timer > 0) (ha : a.action = "move_to") (tx ty : ℝ)
    (hx : getFloatParam a.parameters "target_x" s.x = .ok tx)
    (hy : getFloatParam a.parameters "target_y" s.y = .ok ty) :
    Robot.step s a dt =
      .ok (moveStep (moveStep { s with target_pos := some (tx, ty) } dt) dt, 0) := by
  unfold Robot.step
  rw [ha, if_neg h, if_pos rfl, hx, hy]

lemma step_pick_up (s : Robot) (a : Action) (dt : ℝ)
    (h : ¬ s.wait_timer > 0) (ha : a.action = "pick_up") :
    Robot.step s a dt =
      .ok (moveStep (moveStep
        (if s.carrying_sample = false then { s with carrying_sample := true } else s) dt) dt, 0) := by
  unfold Robot.step
  rw [ha, if_neg h, if_neg (by decide), if_pos rfl]

lemma step_drop_off (s : Robot) (a : Action) (dt : ℝ)
    (h : ¬ s.wait_timer > 0) (ha : a.action = "drop_off") :
    Robot.step s a dt =
      .ok (moveStep (moveStep
        (if s.carrying_sample = true then { s with carrying_sample := false } else s) dt) dt, 0) := by
  unfold Robot.step
  rw [ha, if_neg h, if_neg (by decide), if_neg (by decide), if_pos rfl]

lemma step_wait_branch (s : Robot) (a : Action) (dt : ℝ)
    (h : ¬ s.wait_timer > 0) (ha : a.action = "wait") :
    Robot.step s a dt =
      .ok ((if s.wait_timer ≤ 0 then
        { s with wait_timer := ((extract_number (waitDurationArg a.parameters) 1 : ℚ) : ℝ) }
        else s), 0) := by
  unfold Robot.step
  rw [ha, if_neg h, if_neg (by decide), if_neg (by decide), if_neg (by decide),
    if_neg (by decide), if_pos rfl]

lemma step_unknown (s : Robot) (a : Action) (dt : ℝ)
    (h : ¬ s.wait_timer > 0)
    (h1 : a.action ≠ "move_to") (h2 : a.action ≠ "pick_up") (h3 : a.action ≠ "drop_off")
    (h4 : a.action ≠ "take_photo") (h5 : a.action ≠ "wait") :
    Robot.step s a dt = .ok (moveStep (moveStep s dt) dt, 0) := by
  unfold Robot.step
  rw [if_neg h, if_neg h1, if_neg h2, if_neg h3, if_neg h4, if_neg h5]

lemma moveStep_of_none (s : Robot) (dt : ℝ) (h : s.target_pos = none) :
    moveStep s dt = s := by
  unfold moveStep
  rw [h]

lemma moveStep_of_some (s : Robot) (dt : ℝ) (tx ty : ℝ)
    (h : s.target_pos = some (tx, ty)) :
    moveStep s dt = moveToTarget s tx ty dt := by
  unfold moveStep
  rw [h]

lemma moveToTarget_carrying (s : Robot) (tx ty dt : ℝ) :
    (moveToTarget s tx ty dt).carrying_sample = s.carrying_sample := by
  unfold moveToTarget
  split
  · rfl
  · rfl

lemma moveToTarget_wait_timer (s : Robot) (tx ty dt : ℝ) :
    (moveToTarget s tx ty dt).wait_timer = s.wait_timer := by
  unfold moveToTarget
  split
  · rfl
  · rfl

lemma moveStep_carrying (s : Robot) (dt : ℝ) :
    (moveStep s dt).carrying_sample = s.carrying_sample := by
  unfold moveStep
  cases h : s.target_pos with
  | none => rfl
  | some tp => exact moveToTarget_carrying s tp.1 tp.2 dt

lemma moveStep_wait_timer (s : Robot) (dt : ℝ) :
    (moveStep s dt).wait_timer = s.wait_timer := by
  unfold moveStep
  cases h : s.target_pos with
  | none => rfl
  | some tp => exact moveToTarget_wait_timer s tp.1 tp.2 dt

/-- C10: with no wait timer active, an action whose name is outside the five-name
vocabulary raises no error and is silently skipped: carrying-sample and the wait
timer are unchanged, and when no movement target is in flight the whole state,
position, heading and target included, is unchanged. -/
theorem spec_c10_unknown_action_skipped (s : Robot) (a : Action) (dt : ℝ)
    (hw : ¬ s.wait_timer > 0)
    (h1 : a.action ≠ "move_to") (h2 : a.action ≠ "pick_up")
    (h3 : a.action ≠ "drop_off") (h4 : a.action ≠ "take_photo")
    (h5 : a.action ≠ "wait") :
    ∃ s1 : Robot, Robot.step s a dt = .ok (s1, 0) ∧
      s1.carrying_sample = s.carrying_sample ∧
      s1.wait_timer = s.wait_timer ∧
      (s.target_pos = none → s1 = s) := by
  refine ⟨moveStep (moveStep s dt) dt, step_unknown s a dt hw h1 h2 h3 h4 h5, ?_, ?_, ?_⟩
  · rw [moveStep_carrying, moveStep_carrying]
  · rw [moveStep_wait_timer, moveStep_wait_timer]
  · intro htp
    rw [moveStep_of_none s dt htp, moveStep_of_none s dt htp]

/-- Witness for C10: an idle robot, an action named dance, one-second tick. -/
theorem spec_c10_unknown_action_skipped_witness :
    ∃ s1 : Robot,
      Robot.step ⟨0, 0, 0, 0, 0, none, false, 0⟩ ⟨"dance", []⟩ 1 = .ok (s1, 0) ∧
      s1.carrying_sample = (⟨0, 0, 0, 0, 0, none, false, 0⟩ : Robot).carrying_sample ∧
      s1.wait_timer = (⟨0, 0, 0, 0, 0, none, false, 0⟩ : Robot).wait_timer ∧
      ((⟨0, 0, 0, 0, 0, none, false, 0⟩ : Robot).target_pos = none →
        s1 = ⟨0, 0, 0, 0, 0, none, false, 0⟩) :=
  spec_c10_unknown_action_skipped ⟨0, 0, 0, 0, 0, none, false, 0⟩ ⟨"dance", []⟩ 1
    (by norm_num) (by decide) (by decide) (by decide) (by decide) (by decide)

/-- C9 (amended): provided no wait timer is active and no movement target is in
flight, a pick_up while already carrying is a silent no-op returning the state
unchanged with no error, and symmetrically a drop_off while not carrying. -/
theorem spec_c9_precondition_skip (s : Robot) (ps : List (String × String)) (dt : ℝ)
    (hw : ¬ s.wait_timer > 0) (htp : s.target_pos = none) :
    (s.carrying_sample = true → Robot.step s ⟨"pick_up", ps⟩ dt = .ok (s, 0)) ∧
    (s.carrying_sample = false → Robot.step s ⟨"drop_off", ps⟩ dt = .ok (s, 0)) := by
  constructor
  · intro hc
    rw [step_pick_up s ⟨"pick_up", ps⟩ dt hw rfl, if_neg (by rw [hc]; exact fun h => by cases h),
      moveStep_of_none s dt htp, moveStep_of_none s dt htp]
  · intro hc
    rw [step_drop_off s ⟨"drop_off", ps⟩ dt hw rfl, if_neg (by rw [hc]; exact fun h => by cases h),
      moveStep_of_none s dt htp, moveStep_of_none s dt htp]

/-- Witness for C9's amended theorem: a carrying robot at rest, duplicate pick_up
and then the symmetric case for a non-carrying robot and drop_off. -/
theorem spec_c9_precondition_skip_witness :
    ((⟨0, 0, 0, 0, 0, none, true, 0⟩ : Robot).carrying_sample = true →
      Robot.step ⟨0, 0, 0, 0, 0, none, true, 0⟩ ⟨"pick_up", []⟩ 1 =
        .ok (⟨0, 0, 0, 0, 0, none, true, 0⟩, 0)) ∧
    ((⟨0, 0, 0, 0, 0, none, true, 0⟩ : Robot).carrying_sample = false →
      Robot.step ⟨0, 0, 0, 0, 0, none, true, 0⟩ ⟨"drop_off", []⟩ 1 =
        .ok (⟨0, 0, 0, 0, 0, none, true, 0⟩, 0)) :=
  spec_c9_precondition_skip ⟨0, 0, 0, 0, 0, none, true, 0⟩ [] 1 (by norm_num) rfl

/-- C2 (counterexample): with a wait timer of 1 active, a single step call itself
mutates the shared action cursor, decrementing it by one (the returned integer is
the net change step applies to current_action_index), where the claim requires
the timer-decrement branch never to touch the cursor. -/
theorem spec_c2_counterexample :
    Robot.step ⟨0, 0, 0, 0, 0, none, false, 1⟩ ⟨"pick_up", []⟩ 1 =
      .ok (⟨0, 0, 0, 0, 0, none, false, 0⟩, -1) ∧ (-1 : Int) ≠ 0 := by
  constructor
  · rw [step_timer_active _ _ _ (by norm_num : (1 : ℝ) > 0)]
    norm_num
  · decide

/-- C2 (amended): while a wait is active the step function decrements the timer by
dt and also decrements the shared action cursor by one; the caller's unconditional
cursor advance (taken whenever no movement target is set) then restores it, so the
net effect of a full tick is an unchanged cursor and a timer reduced by dt. Cursor
advancement is therefore not governed solely by the caller's in-flight check: the
timer-decrement branch compensates it from inside step. -/
theorem spec_c2_wait_tick (acts : List Action) (s : Robot) (idx : Int) (dt : ℝ)
    (hw : s.wait_timer > 0) (htp : s.target_pos = none)
    (h0 : 0 ≤ idx) (hlen : idx < (acts.length : Int)) :
    mainTick acts s idx dt = .ok ({ s with wait_timer := s.wait_timer - dt }, idx) := by
  have hnat : idx.toNat < acts.length := by omega
  have ha : acts.get? idx.toNat = some (acts.get ⟨idx.toNat, hnat⟩) := List.get?_eq_get hnat
  have hget : pyListGet acts idx = some (acts.get ⟨idx.toNat, hnat⟩) := by
    unfold pyListGet
    rw [if_pos h0]
    exact ha
  have harith : idx + -1 + 1 = idx := by omega
  unfold mainTick
  rw [if_pos hlen]
  simp only [hget, step_timer_active s (acts.get ⟨idx.toNat, hnat⟩) dt hw, htp, harith,
    if_true]

/-- Witness for C2's amended theorem: a two-action plan, cursor on the second
action, timer at 2, one-second tick. -/
theorem spec_c2_wait_tick_witness :
    mainTick [⟨"wait", [("duration", "2")]⟩, ⟨"pick_up", []⟩]
        ⟨0, 0, 0, 0, 0, none, false, 2⟩ 1 1 =
      .ok ({ (⟨0, 0, 0, 0, 0, none, false, 2⟩ : Robot) with wait_timer := 2 - 1 }, 1) :=
  spec_c2_wait_tick [⟨"wait", [("duration", "2")]⟩, ⟨"pick_up", []⟩]
    ⟨0, 0, 0, 0, 0, none, false, 2⟩ 1 1 (by norm_num) rfl (by decide) (by decide)

/-
  Lemmas on the numeric-token scanner for the default case of extract_number.
-/

lemma takeDigits_no_digits (cs : List Char) (h : ∀ c ∈ cs, c.isDigit = false) :
    takeDigits cs = ([], cs) := by
  cases cs with
  | nil => rfl
  | cons c t =>
    unfold takeDigits
    rw [h c (List.mem_cons_self c t)]
    rfl

lemma matchNumberBody_no_digits (sgn : ℚ) (cs : List Char)
    (h : ∀ c ∈ cs, c.isDigit = false) : matchNumberBody sgn cs = none := by
  cases cs with
  | nil => rfl
  | cons d u =>
    have hu : ∀ x ∈ u, x.isDigit = false := fun x hx => h x (List.mem_cons_of_mem _ hx)
    unfold matchNumberBody
    rw [takeDigits_no_digits (d :: u) h]
    simp [takeDigits_no_digits u hu]

lemma matchNumberAt_no_digits (cs : List Char) (h : ∀ c ∈ cs, c.isDigit = false) :
    matchNumberAt cs = none := by
  cases cs with
  | nil => rfl
  | cons c t =>
    have ht : ∀ x ∈ t, x.isDigit = false := fun x hx => h x (List.mem_cons_of_mem _ hx)
    show (if c = '-' then matchNumberBody (-1) t
          else if c = '+' then matchNumberBody 1 t
          else matchNumberBody 1 (c :: t)) = none
    by_cases h1 : c = '-'
    · rw [if_pos h1]
      exact matchNumberBody_no_digits _ _ ht
    · rw [if_neg h1]
      by_cases h2 : c = '+'
      · rw [if_pos h2]
        exact matchNumberBody_no_digits _ _ ht
      · rw [if_neg h2]
        exact matchNumberBody_no_digits _ _ h

lemma searchNumber_no_digits (cs : List Char) (h : ∀ c ∈ cs, c.isDigit = false) :
    searchNumber cs = none := by
  induction cs with
  | nil => rfl
  | cons c t ih =>
    have ht : ∀ x ∈ t, x.isDigit = false := fun x hx => h x (List.mem_cons_of_mem _ hx)
    unfold searchNumber
    rw [matchNumberAt_no_digits (c :: t) h]
    exact ih ht

/-- C5: arming a wait with duration 2.5s from a zero timer sets the timer to
exactly 2.5 without touching the cursor; each of the next ticks at dt = 1
decrements it, leaving about 0.5 and a still-active wait after two ticks, and a
non-positive timer, wait complete, after a third; and a duration string holding
no digits makes extract_number fall back to the supplied default (1 at the wait
call site). The decrement ticks ignore the action passed in. -/
theorem spec_c5_wait_duration (s : Robot) (a2 a3 a4 : Action)
    (h0 : s.wait_timer = 0) :
    (Robot.step s ⟨"wait", [("duration", "2.5s")]⟩ 1 =
      .ok ({ s with wait_timer := 5 / 2 }, 0)) ∧
    (Robot.step { s with wait_timer := 5 / 2 } a2 1 =
      .ok ({ s with wait_timer := 3 / 2 }, -1)) ∧
    (Robot.step { s with wait_timer := 3 / 2 } a3 1 =
      .ok ({ s with wait_timer := 1 / 2 }, -1)) ∧
    (((1 : ℝ) / 2) > 0) ∧
    (Robot.step { s with wait_timer := 1 / 2 } a4 1 =
      .ok ({ s with wait_timer := -(1 / 2) }, -1)) ∧
    (¬ ((-(1 / 2) : ℝ) > 0)) ∧
    (∀ (str1 : String) (d : ℚ), (∀ c ∈ str1.data, c.isDigit = false) →
      extract_number (.inl str1) d = d) := by
  have hnum : extract_number (.inl "2.5s") 1 = 5 / 2 := by
    have h1 : extract_number (.inl "2.5s") 1 =
        (1 : ℚ) * (((2 : ℕ) : ℚ) + ((5 : ℕ) : ℚ) / (10 : ℚ) ^ (1 : ℕ)) := rfl
    rw [h1]
    norm_num
  refine ⟨?_, ?_, ?_, by norm_num, ?_, by norm_num, ?_⟩
  · rw [step_wait_branch s _ 1 (by rw [h0]; norm_num) rfl,
      if_pos (by rw [h0] : s.wait_timer ≤ 0)]
    have harg : waitDurationArg [("duration", "2.5s")] = .inl "2.5s" := rfl
    rw [harg, hnum]
    norm_num
  · rw [step_timer_active _ a2 1 (by show (5 / 2 : ℝ) > 0; norm_num)]
    norm_num
  · rw [step_timer_active _ a3 1 (by show (3 / 2 : ℝ) > 0; norm_num)]
    norm_num
  · rw [step_timer_active _ a4 1 (by show (1 / 2 : ℝ) > 0; norm_num)]
    norm_num
  · intro str1 d hd
    simp only [extract_number, searchNumber_no_digits str1.data hd]

/-- Witness for C5: the idle robot with a zero timer, arbitrary follow-up
actions, and the digit-free duration string soon at default 7. -/
theorem spec_c5_wait_duration_witness :
    (Robot.step ⟨0, 0, 0, 0, 0, none, false, 0⟩ ⟨"wait", [("duration", "2.5s")]⟩ 1 =
      .ok ({ (⟨0, 0, 0, 0, 0, none, false, 0⟩ : Robot) with wait_timer := 5 / 2 }, 0)) ∧
    extract_number (.inl "soon") 7 = 7 := by
  obtain ⟨h1, _, _, _, _, _, hgen⟩ :=
    spec_c5_wait_duration ⟨0, 0, 0, 0, 0, none, false, 0⟩
      ⟨"wait", []⟩ ⟨"wait", []⟩ ⟨"wait", []⟩ rfl
  exact ⟨h1, hgen "soon" 7 (by decide)⟩

/-- C6: an actor at the origin executing move_to with target (3, 4), no wait
active, when the per-tick travel budget ROBOT_MAX_SPEED times dt covers the
remaining distance 5: a single step call moves the position to exactly (3, 4),
sets the heading to atan2 4 3, and clears the active target in the same tick,
completing the action; the cursor is untouched. -/
theorem spec_c6_move_completes (a sp asp : ℝ) (tp : Option (ℝ × ℝ)) (c : Bool)
    (w dt : ℝ) (hw : ¬ w > 0) (hdt : 5 ≤ ROBOT_MAX_SPEED * dt) :
    Robot.step ⟨0, 0, a, sp, asp, tp, c, w⟩
        ⟨"move_to", [("target_x", "3"), ("target_y", "4")]⟩ dt =
      .ok (⟨3, 4, atan2 4 3, sp, asp, none, c, w⟩, 0) := by
  have hx : getFloatParam [("target_x", "3"), ("target_y", "4")] "target_x" (0 : ℝ) =
      .ok 3 := by
    have h1 : getFloatParam [("target_x", "3"), ("target_y", "4")] "target_x" (0 : ℝ) =
        .ok ((((1 : ℚ) * (((3 : ℕ) : ℚ) + ((0 : ℕ) : ℚ) / (10 : ℚ) ^ (0 : ℕ))) : ℚ) : ℝ) := rfl
    rw [h1]
    norm_num
  have hy : getFloatParam [("target_x", "3"), ("target_y", "4")] "target_y" (0 : ℝ) =
      .ok 4 := by
    have h1 : getFloatParam [("target_x", "3"), ("target_y", "4")] "target_y" (0 : ℝ) =
        .ok ((((1 : ℚ) * (((4 : ℕ) : ℚ) + ((0 : ℕ) : ℚ) / (10 : ℚ) ^ (0 : ℕ))) : ℚ) : ℝ) := rfl
    rw [h1]
    norm_num
  rw [step_move_to _ _ _ hw rfl 3 4 hx hy]
  have hupd : ({ (⟨0, 0, a, sp, asp, tp, c, w⟩ : Robot) with
      target_pos := some ((3 : ℝ), (4 : ℝ)) }) = ⟨0, 0, a, sp, asp, some (3, 4), c, w⟩ := rfl
  rw [hupd]
  have hd5 : Real.sqrt (((3 : ℝ) - 0) ^ 2 + ((4 : ℝ) - 0) ^ 2) = 5 := by
    rw [show ((3 : ℝ) - 0) ^ 2 + ((4 : ℝ) - 0) ^ 2 = 5 ^ 2 by norm_num]
    exact Real.sqrt_sq (by norm_num)
  have hmove1 : moveStep (⟨0, 0, a, sp, asp, some (3, 4), c, w⟩ : Robot) dt =
      ⟨3, 4, atan2 4 3, sp, asp, some (3, 4), c, w⟩ := by
    rw [moveStep_of_some _ _ 3 4 rfl]
    simp only [moveToTarget]
    rw [hd5, if_neg (by norm_num : ¬ (5 : ℝ) < 1), min_eq_right hdt]
    norm_num
  have hd0 : Real.sqrt (((3 : ℝ) - 3) ^ 2 + ((4 : ℝ) - 4) ^ 2) = 0 := by
    rw [show ((3 : ℝ) - 3) ^ 2 + ((4 : ℝ) - 4) ^ 2 = 0 by norm_num]
    exact Real.sqrt_zero
  have hmove2 : moveStep (⟨3, 4, atan2 4 3, sp, asp, some (3, 4), c, w⟩ : Robot) dt =
      ⟨3, 4, atan2 4 3, sp, asp, none, c, w⟩ := by
    rw [moveStep_of_some _ _ 3 4 rfl]
    simp only [moveToTarget]
    rw [hd0, if_pos (by norm_num : (0 : ℝ) < 1)]
  rw [hmove1, hmove2]

/-- Witness for C6: all free state components zero, dt = 1, so the travel budget
is 150 and covers the distance 5. -/
theorem spec_c6_move_completes_witness :
    Robot.step ⟨0, 0, 0, 0, 0, none, false, 0⟩
        ⟨"move_to", [("target_x", "3"), ("target_y", "4")]⟩ 1 =
      .ok (⟨3, 4, atan2 4 3, 0, 0, none, false, 0⟩, 0) :=
  spec_c6_move_completes 0 0 0 none false 0 1 (by norm_num)
    (by show (5 : ℝ) ≤ ROBOT_MAX_SPEED * 1; unfold ROBOT_MAX_SPEED; norm_num)

/-- C9 (counterexample): with a movement target still in flight, a pick_up step on
an already-carrying robot is not a no-op: the movement continuation at the end of
step moves the robot from x = 0 to x = 1/2 and clears the target, so state beyond
carrying-sample changes, where the claim says nothing else changes. -/
theorem spec_c9_counterexample :
    Robot.step ⟨0, 0, 0, 0, 0, some (1 / 2, 0), true, 0⟩ ⟨"pick_up", []⟩ 1 =
      .ok (⟨1 / 2, 0, 0, 0, 0, none, true, 0⟩, 0) ∧ ((1 : ℝ) / 2 ≠ 0) := by
  constructor
  · rw [step_pick_up _ _ _ (by show ¬ (0 : ℝ) > 0; norm_num) rfl,
      if_neg (by decide :
        ¬ ((⟨0, 0, 0, 0, 0, some (1 / 2, 0), true, 0⟩ : Robot).carrying_sample = false))]
    have hd : Real.sqrt ((((1 : ℝ) / 2) - 0) ^ 2 + ((0 : ℝ) - 0) ^ 2) = 1 / 2 := by
      rw [show (((1 : ℝ) / 2) - 0) ^ 2 + ((0 : ℝ) - 0) ^ 2 = (1 / 2) ^ 2 by norm_num]
      exact Real.sqrt_sq (by norm_num)
    have hm1 : moveStep (⟨0, 0, 0, 0, 0, some (1 / 2, 0), true, 0⟩ : Robot) 1 =
        ⟨1 / 2, 0, 0, 0, 0, none, true, 0⟩ := by
      rw [moveStep_of_some _ _ (1 / 2) 0 rfl]
      simp only [moveToTarget]
      rw [hd, if_pos (by norm_num : (1 : ℝ) / 2 < 1)]
    have hm2 : moveStep (⟨1 / 2, 0, 0, 0, 0, none, true, 0⟩ : Robot) 1 =
        ⟨1 / 2, 0, 0, 0, 0, none, true, 0⟩ :=
      moveStep_of_none _ _ rfl
    rw [hm1, hm2]
  · norm_num

end LlmMissionPlanner
